import Mathlib

/-!
Verification of `receipt_generator.py` (shopping-receipt-generator).

The Python module computes with `decimal.Decimal`. A `Decimal` value is a
coefficient together with a base-10 exponent. We embed finite decimals as
such pairs with unlimited precision. The Python context precision of 28
significant digits only matters for operations whose exact result exceeds
28 digits; all monetary quantities considered here are far below that
bound, so arithmetic (`*`, `+`) is exact, as in this model. Special values
(NaN, Infinity, negative zero) are outside the model: no claim touches
them, and the numeric-string parser below simply rejects their spellings.
-/

namespace ReceiptGen

/-- A finite Python `Decimal`: value = `man * 10 ^ exp`. The pair (not just
the value) is observable through `str`, exactly as in Python, where
`Decimal("30.0")` and `Decimal("3E+1")` print differently. -/
structure Dec where
  man : Int
  exp : Int
deriving Repr, DecidableEq

/-- The exact rational value of a decimal. -/
def Dec.val (d : Dec) : ℚ := (d.man : ℚ) * (10 : ℚ) ^ d.exp

/-- Exact `Decimal` multiplication: coefficients multiply, exponents add. -/
def Dec.mul (a b : Dec) : Dec := ⟨a.man * b.man, a.exp + b.exp⟩

/-- Exact `Decimal` addition: operands are aligned to the smaller exponent. -/
def Dec.add (a b : Dec) : Dec :=
  let e := min a.exp b.exp
  ⟨a.man * (10 : Int) ^ (a.exp - e).toNat + b.man * (10 : Int) ^ (b.exp - e).toNat, e⟩

/-- Divide `n` by `10 ^ k`, rounding half away from zero (`ROUND_HALF_UP`). -/
def roundHalfUpPow10 (n : Int) (k : Nat) : Int :=
  let d : Int := 10 ^ k
  if 0 ≤ n then (n + d / 2) / d else -((-n + d / 2) / d)

/-- Embedding of `value.quantize(Decimal("0.01"), rounding=ROUND_HALF_UP)`: rescale to
exponent `-2`, rounding half away from zero when digits are dropped. -/
def Dec.quantize2 (d : Dec) : Dec :=
  if -2 ≤ d.exp then ⟨d.man * (10 : Int) ^ (d.exp + 2).toNat, -2⟩
  else ⟨roundHalfUpPow10 d.man (-(d.exp + 2)).toNat, -2⟩

/-- Strip factors of 10 from the coefficient, bumping the exponent.
Fuel-driven; `natAbs` of the coefficient bounds the number of steps. -/
def stripZerosAux : Nat → Int → Int → Int × Int
  | 0, m, e => (m, e)
  | fuel + 1, m, e =>
    if m % 10 = 0 ∧ m ≠ 0 then stripZerosAux fuel (m / 10) (e + 1) else (m, e)

/-- Embedding of `Decimal.normalize()`: reduce to canonical form by stripping trailing
zeros; any zero becomes `Decimal("0")` (exponent 0). -/
def Dec.normalize (d : Dec) : Dec :=
  if d.man = 0 then ⟨0, 0⟩
  else
    let p := stripZerosAux d.man.natAbs d.man d.exp
    ⟨p.1, p.2⟩

/-- The zero character repeated `k` times. -/
def zeros (k : Nat) : String := String.mk (List.replicate k '0')

/-- Digit-string rendering for a non-positive exponent (the non-exponential
branch of the to-scientific-string conversion). -/
def plainDigits (digits : String) (exp : Int) : String :=
  if exp = 0 then digits
  else
    let k := (-exp).toNat
    if k < digits.length then
      digits.take (digits.length - k) ++ "." ++ digits.drop (digits.length - k)
    else
      "0." ++ zeros (k - digits.length) ++ digits

/-- The exponential-notation branch of to-scientific-string. -/
def expBody (digits : String) (adjusted : Int) : String :=
  (if digits.length = 1 then digits else digits.take 1 ++ "." ++ digits.drop 1) ++
    "E" ++ (if adjusted < 0 then "-" else "+") ++ toString adjusted.natAbs

/-- Rendering `str()` of a finite `Decimal`, following the General Decimal Arithmetic
to-scientific-string rules: plain digits when `exp ≤ 0` and the adjusted
exponent is at least `-6`, otherwise exponential notation. -/
def Dec.sciString (d : Dec) : String :=
  let digits := toString d.man.natAbs
  let adjusted : Int := d.exp + digits.length - 1
  (if d.man < 0 then "-" else "") ++
    (if d.exp ≤ 0 ∧ -6 ≤ adjusted then plainDigits digits d.exp
     else expBody digits adjusted)

example : Dec.sciString ⟨25400, -2⟩ = "254.00" := by decide
example : Dec.sciString ⟨0, -2⟩ = "0.00" := by decide
example : Dec.sciString ⟨3, 1⟩ = "3E+1" := by decide
example : Dec.sciString ⟨88, -1⟩ = "8.8" := by decide
example : Dec.normalize ⟨8800, -3⟩ = ⟨88, -1⟩ := by decide
example : Dec.quantize2 ⟨2694120, -5⟩ = ⟨2694, -2⟩ := by decide

/-! ### The `LineItem` dataclass and the receipt builder -/

/-- The `LineItem` dataclass: description, exact-decimal unit price,
integer quantity. -/
structure LineItem where
  description : String
  price : Dec
  quantity : Int
deriving Repr, DecidableEq

/-- Embedding of `LineItem.line_total`:
`(self.price * Decimal(self.quantity)).quantize(Decimal("0.01"), ROUND_HALF_UP)`. -/
def LineItem.line_total (it : LineItem) : Dec :=
  (it.price.mul ⟨it.quantity, 0⟩).quantize2

/-- Embedding of `format_money`: the currency symbol concatenated before
`value.quantize(Decimal("0.01"), ROUND_HALF_UP)` rendered by `str`. -/
def format_money (value : Dec) (currency_symbol : String) : String :=
  currency_symbol ++ (value.quantize2).sciString

/-- The percentage inserted in the tax line:
`(tax_rate*Decimal("100")).normalize()` rendered by `str`. -/
def taxLabel (tax_rate : Dec) : String :=
  ((tax_rate.mul ⟨100, 0⟩).normalize).sciString

/-- The f-string of one item line:
`- {description} x {quantity} @ {format_money(price)} = {format_money(line_total)}`. -/
def renderItemLine (currency_symbol : String) (it : LineItem) : String :=
  "- " ++ it.description ++ " x " ++ toString it.quantity ++ " @ " ++
    format_money it.price currency_symbol ++ " = " ++
    format_money it.line_total currency_symbol

/-- The loop body of `build_receipt`: starting from `lines = ["Items:"]` and
`subtotal = Decimal("0")`, each iteration appends the rendered item line and
adds the line total into the running subtotal. -/
def receiptFold (currency_symbol : String) (items : List LineItem) :
    List String × Dec :=
  items.foldl
    (fun acc it => (acc.1 ++ [renderItemLine currency_symbol it], acc.2.add it.line_total))
    (["Items:"], ⟨0, 0⟩)

/-- Embedding of `build_receipt(items, tax_rate, currency_symbol)`. -/
def build_receipt (items : List LineItem) (tax_rate : Dec)
    (currency_symbol : String) : String :=
  let r := receiptFold currency_symbol items
  let subtotal := r.2
  let tax := (subtotal.mul tax_rate).quantize2
  let grand_total := (subtotal.add tax).quantize2
  String.intercalate ("\n")
    (r.1 ++
      ["",
       "Subtotal: " ++ format_money subtotal currency_symbol,
       "Tax (" ++ taxLabel tax_rate ++ "%): " ++ format_money tax currency_symbol,
       "Total: " ++ format_money grand_total currency_symbol])

/-- Subtotal of a list of items, as accumulated by `build_receipt`. -/
def subtotalOf (items : List LineItem) : Dec :=
  items.foldl (fun s it => s.add it.line_total) ⟨0, 0⟩

/-- Tax as computed by `build_receipt`. -/
def taxOf (items : List LineItem) (tax_rate : Dec) : Dec :=
  ((subtotalOf items).mul tax_rate).quantize2

/-- Grand total as computed by `build_receipt`. -/
def grandTotalOf (items : List LineItem) (tax_rate : Dec) : Dec :=
  ((subtotalOf items).add (taxOf items tax_rate)).quantize2

example :
    build_receipt
      [⟨"Lovely Loveseat", ⟨25400, -2⟩, 1⟩, ⟨"Luxurious Lamp", ⟨5215, -2⟩, 1⟩]
      ⟨88, -3⟩ "$" =
    "Items:\n- Lovely Loveseat x 1 @ $254.00 = $254.00\n- Luxurious Lamp x 1 @ $52.15 = $52.15\n\nSubtotal: $306.15\nTax (8.8%): $26.94\nTotal: $333.09" := by
  decide

/-! ### JSON values and the item parser

`load_items_from_json` reads a file and decodes it with `json.loads`; file
access and JSON decoding are external to the core, so the embedding takes
the already-decoded document as input. JSON numbers are modelled as
integers only (`jint`); claims never feed float-valued fields, whose
`str()` involves binary floating point. Python exceptions
(`AttributeError`, `TypeError`, `ValueError`, `decimal.InvalidOperation`)
become `Except.error` carrying the exception name. -/

inductive JValue where
  | jnull
  | jbool (b : Bool)
  | jint (n : Int)
  | jstr (s : String)
  | jarr (elems : List JValue)
  | jobj (fields : List (String × JValue))

/-- Whether a JSON value is a list. -/
def JValue.isList : JValue → Bool
  | .jarr _ => true
  | _ => false

/-- Python single-quoted repr of a string (quote/backslash escaping inside
the string is not modelled; no claim ever takes `repr` of a string that
needs it). -/
def pyQuote (s : String) : String :=
  let q := String.singleton (Char.ofNat 39)
  q ++ s ++ q

mutual

/-- Python `repr()` of a decoded JSON value. -/
def pyRepr : JValue → String
  | .jnull => "None"
  | .jbool true => "True"
  | .jbool false => "False"
  | .jint n => toString n
  | .jstr s => pyQuote s
  | .jarr xs => "[" ++ pyReprList xs ++ "]"
  | .jobj fs => "\x7b" ++ pyReprFields fs ++ "\x7d"

/-- Comma-separated reprs of list elements. -/
def pyReprList : List JValue → String
  | [] => ""
  | [x] => pyRepr x
  | x :: y :: xs => pyRepr x ++ ", " ++ pyReprList (y :: xs)

/-- Comma-separated `key: value` reprs of dict entries. -/
def pyReprFields : List (String × JValue) → String
  | [] => ""
  | [(k, v)] => pyQuote k ++ ": " ++ pyRepr v
  | (k, v) :: f :: fs => pyQuote k ++ ": " ++ pyRepr v ++ ", " ++ pyReprFields (f :: fs)

end

/-- Python `str()` of a decoded JSON value: a string is itself, anything
else falls back to its repr. -/
def pyStr : JValue → String
  | .jstr s => s
  | v => pyRepr v

/-- One leading sign character. -/
def splitSign : List Char → Bool × List Char
  | '-' :: rest => (true, rest)
  | '+' :: rest => (false, rest)
  | cs => (false, cs)

/-- Numeric value of a digit character. -/
def digitVal (c : Char) : Nat := c.toNat - 48

/-- Value of a digit sequence, most significant first. -/
def natOfDigits (cs : List Char) : Nat :=
  cs.foldl (fun a c => 10 * a + digitVal c) 0

/-- Longest digit prefix and the remainder. -/
def takeDigits (cs : List Char) : List Char × List Char :=
  (cs.takeWhile Char.isDigit, cs.dropWhile Char.isDigit)

/-- ASCII whitespace, as stripped by Python numeric-string conversion. -/
def isPySpace (c : Char) : Bool :=
  c.toNat = 32 ∨ c.toNat = 9 ∨ c.toNat = 10 ∨ c.toNat = 13 ∨ c.toNat = 11 ∨ c.toNat = 12

/-- Strip leading and trailing whitespace from a character list. -/
def trimChars (cs : List Char) : List Char :=
  ((cs.dropWhile isPySpace).reverse.dropWhile isPySpace).reverse

/-- The digit part of an exponent marker: optional sign, then digits which
must exhaust the input. -/
def parseExpDigits (cs : List Char) : Option Int :=
  let p := splitSign cs
  let q := takeDigits p.2
  if q.1.isEmpty ∨ ¬ q.2.isEmpty then none
  else some (if p.1 then -(natOfDigits q.1 : Int) else (natOfDigits q.1 : Int))

/-- The tail after the mantissa: either empty (exponent 0) or `e`/`E`
followed by a signed digit sequence. -/
def parseExpPart : List Char → Option Int
  | [] => some 0
  | 'e' :: rest => parseExpDigits rest
  | 'E' :: rest => parseExpDigits rest
  | _ => none

/-- Mantissa of a decimal numeric string: digits, optionally with one point;
at least one digit overall. Returns the coefficient, the count of
fractional digits, and the unconsumed tail. -/
def parseMantissa (cs : List Char) : Option (Nat × Nat × List Char) :=
  let p := takeDigits cs
  match p.2 with
  | '.' :: r2 =>
    let f := takeDigits r2
    if p.1.isEmpty ∧ f.1.isEmpty then none
    else some (natOfDigits (p.1 ++ f.1), f.1.length, f.2)
  | _ => if p.1.isEmpty then none else some (natOfDigits p.1, 0, p.2)

/-- Embedding of `Decimal(string)` on finite numeric strings: strip surrounding
whitespace and underscores, then sign, digits, optional point, optional
exponent. (Python places underscores only between digits; the claims use
none.) Special values (NaN, Infinity) are not modelled. -/
def parseDec (s : String) : Option Dec :=
  let cleaned := (trimChars s.toList).filter (fun c => c.toNat ≠ 95)
  let p := splitSign cleaned
  match parseMantissa p.2 with
  | none => none
  | some m =>
    match parseExpPart m.2.2 with
    | none => none
    | some e =>
      some ⟨(if p.1 then -(m.1 : Int) else (m.1 : Int)), e - m.2.1⟩

/-- Embedding of `int(string)`: strip whitespace and underscores, optional sign, digits. -/
def parseIntStr (s : String) : Option Int :=
  let cleaned := (trimChars s.toList).filter (fun c => c.toNat ≠ 95)
  let p := splitSign cleaned
  if p.2.isEmpty ∨ ¬ (p.2.all Char.isDigit) then none
  else some (if p.1 then -(natOfDigits p.2 : Int) else (natOfDigits p.2 : Int))

/-- Python `int()` of a decoded JSON value. -/
def pyInt : JValue → Except String Int
  | .jint n => .ok n
  | .jbool b => .ok (if b then 1 else 0)
  | .jstr s =>
    match parseIntStr s with
    | some n => .ok n
    | none => .error ("ValueError")
  | _ => .error ("TypeError")

/-- Last binding of a key in a field list (JSON object decoding keeps the
last duplicate, and dict lookup then sees only it). -/
def lookupLast (fields : List (String × JValue)) (key : String) : Option JValue :=
  fields.foldl (fun acc p => if p.1 = key then some p.2 else acc) none

/-- Embedding of `dict.get(key, default)`. -/
def pyGetD (fields : List (String × JValue)) (key : String) (dflt : JValue) : JValue :=
  (lookupLast fields key).getD dflt

/-- Embedding of `for entry in raw_items`: lists yield their elements, strings their
characters, dicts their keys; other values raise `TypeError`. -/
def pyIter : JValue → Except String (List JValue)
  | .jarr xs => .ok xs
  | .jstr s => .ok (s.toList.map (fun c => .jstr (String.singleton c)))
  | .jobj fs => .ok (fs.map (fun p => .jstr p.1))
  | _ => .error ("TypeError")

/-- The body of the parsing loop for one raw record:
`description = str(entry.get("description", "Item"))`,
`price = Decimal(str(entry.get("price", "0")))`,
`quantity = int(entry.get("quantity", 1))`. A non-dict entry has no `.get`
and raises `AttributeError`. -/
def parseEntry : JValue → Except String LineItem
  | .jobj fields =>
    let description := pyStr (pyGetD fields ("description") (.jstr ("Item")))
    match parseDec (pyStr (pyGetD fields ("price") (.jstr ("0")))) with
    | none => .error ("InvalidOperation")
    | some price =>
      match pyInt (pyGetD fields ("quantity") (.jint 1)) with
      | .error msg => .error msg
      | .ok q => .ok ⟨description, price, q⟩
  | _ => .error ("AttributeError")

/-- The parsing loop: the first exception aborts, discarding the list
accumulated so far. -/
def parseEntries : List JValue → Except String (List LineItem)
  | [] => .ok []
  | e :: rest =>
    match parseEntry e with
    | .error msg => .error msg
    | .ok it =>
      match parseEntries rest with
      | .error msg => .error msg
      | .ok more => .ok (it :: more)

/-- Embedding of `load_items_from_json` after JSON decoding: `data.get("items", [])`
(an `AttributeError` if `data` is not a dict), then the record loop. -/
def load_items_from_json (data : JValue) : Except String (List LineItem) :=
  match data with
  | .jobj fields =>
    match pyIter (pyGetD fields ("items") (.jarr [])) with
    | .error msg => .error msg
    | .ok entries => parseEntries entries
  | _ => .error ("AttributeError")

/-! ### Specification-side definitions

These follow the spec's words, for comparison with the code. -/

/-- Rounding a rational half away from zero to an integer
(the spec's `round_half_up` tie rule at scale 1). -/
def ratHalfUp (q : ℚ) : Int :=
  if 0 ≤ q then ⌊q + 1 / 2⌋ else -⌊-q + 1 / 2⌋

/-- The spec's `round_half_up(·, 2dp)` on exact rationals. -/
def roundHalfUpRat2 (q : ℚ) : ℚ := (ratHalfUp (100 * q) : ℚ) / 100

/-- Modelled from the spec: the tax percentage rendered as `tax_rate * 100`
"formatted with trailing zeros stripped" — a plain decimal numeral with the
trailing zeros removed, never scientific notation. -/
def specStripLabel (tax_rate : Dec) : String :=
  let n := (tax_rate.mul ⟨100, 0⟩).normalize
  (if n.man < 0 then "-" else "") ++
    (if 0 < n.exp then toString n.man.natAbs ++ zeros n.exp.toNat
     else plainDigits (toString n.man.natAbs) n.exp)

/-! ### Arithmetic lemmas: `quantize2` realizes half-up rounding to 2dp -/

lemma floor_add_half (n : Int) (k : Nat) :
    ⌊(n : ℚ) / (10 : ℚ) ^ k + 1 / 2⌋ = (2 * n + 10 ^ k) / (2 * 10 ^ k) := by
  have h10 : ((10 : ℚ) ^ k) ≠ 0 := by positivity
  have key : (n : ℚ) / (10 : ℚ) ^ k + 1 / 2
      = ((2 * n + 10 ^ k : ℤ) : ℚ) / ((2 * 10 ^ k : ℕ) : ℚ) := by
    push_cast
    field_simp
    ring
  rw [key, Rat.floor_intCast_div_natCast]
  congr 1
  push_cast
  ring

lemma ediv_half_pow10 (n : Int) (k : Nat) :
    (2 * n + 10 ^ k) / (2 * 10 ^ k) = (n + 10 ^ k / 2) / (10 ^ k : Int) := by
  cases k with
  | zero => norm_num; omega
  | succ k' =>
    have h5 : (10 : Int) ^ (k' + 1) = 2 * (5 * 10 ^ k') := by ring
    rw [h5]
    have h1 : 2 * n + 2 * (5 * 10 ^ k') = 2 * (n + 5 * 10 ^ k') := by ring
    rw [h1, Int.mul_ediv_mul_of_pos _ _ (by norm_num : (0:Int) < 2),
      Int.mul_ediv_cancel_left _ (by norm_num : (2:Int) ≠ 0)]

lemma floor_half : ⌊(1 : ℚ) / 2⌋ = 0 := by
  rw [show ((1 : ℚ) / 2) = ((1 : ℤ) : ℚ) / ((2 : ℕ) : ℚ) by norm_num,
    Rat.floor_intCast_div_natCast]
  rfl

lemma ratHalfUp_intCast (z : Int) : ratHalfUp (z : ℚ) = z := by
  unfold ratHalfUp
  rcases le_or_lt 0 (z : ℚ) with h | h
  · rw [if_pos h, Int.floor_int_add, floor_half]
    omega
  · rw [if_neg (not_le.mpr h)]
    have : (-(z : ℚ)) = ((-z : ℤ) : ℚ) := by push_cast; ring
    rw [this, Int.floor_int_add, floor_half]
    omega

lemma roundHalfUpPow10_eq (n : Int) (k : Nat) :
    roundHalfUpPow10 n k = ratHalfUp ((n : ℚ) / (10 : ℚ) ^ k) := by
  have hdpos : (0 : ℚ) < (10 : ℚ) ^ k := by positivity
  simp only [roundHalfUpPow10, ratHalfUp]
  rcases le_or_lt 0 n with h | h
  · have hq : 0 ≤ (n : ℚ) / (10 : ℚ) ^ k :=
      div_nonneg (by exact_mod_cast h) hdpos.le
    rw [if_pos h, if_pos hq, floor_add_half, ediv_half_pow10]
  · have hq : ¬ 0 ≤ (n : ℚ) / (10 : ℚ) ^ k := by
      push_neg
      exact div_neg_of_neg_of_pos (by exact_mod_cast h) hdpos
    rw [if_neg (by omega), if_neg hq]
    congr 1
    have hn : -((n : ℚ) / (10 : ℚ) ^ k) = ((-n : ℤ) : ℚ) / (10 : ℚ) ^ k := by
      push_cast
      ring
    rw [hn, floor_add_half, ediv_half_pow10]

lemma pow_toNat_eq (e : Int) (h : 0 ≤ e) :
    (10 : ℚ) ^ (e.toNat) = (10 : ℚ) ^ e := by
  rw [← zpow_natCast (10 : ℚ), Int.toNat_of_nonneg h]

lemma quantize2_eq (d : Dec) : d.quantize2 = ⟨ratHalfUp (100 * d.val), -2⟩ := by
  simp only [Dec.quantize2, Dec.val]
  by_cases h : -2 ≤ d.exp
  · rw [if_pos h]
    congr 1
    have key : (100 : ℚ) * ((d.man : ℚ) * (10 : ℚ) ^ d.exp)
        = ((d.man * 10 ^ (d.exp + 2).toNat : ℤ) : ℚ) := by
      push_cast
      rw [pow_toNat_eq _ (by omega), zpow_add₀ (by norm_num : (10 : ℚ) ≠ 0)]
      norm_num
      ring
    rw [key, ratHalfUp_intCast]
  · rw [if_neg h]
    congr 1
    rw [roundHalfUpPow10_eq]
    congr 1
    rw [pow_toNat_eq _ (by omega), zpow_neg]
    rw [zpow_add₀ (by norm_num : (10 : ℚ) ≠ 0)]
    field_simp
    ring

lemma val_mk_neg2 (z : Int) : Dec.val ⟨z, -2⟩ = (z : ℚ) / 100 := by
  unfold Dec.val
  rw [show ((-2 : ℤ)) = -(((2 : ℕ)) : ℤ) by norm_num, zpow_neg, zpow_natCast]
  norm_num
  ring

lemma quantize2_val (d : Dec) : (d.quantize2).val = roundHalfUpRat2 d.val := by
  rw [quantize2_eq, val_mk_neg2, roundHalfUpRat2]

lemma quantize2_exp (d : Dec) : (d.quantize2).exp = -2 := by
  unfold Dec.quantize2
  split <;> rfl

lemma val_mul (a b : Dec) : (a.mul b).val = a.val * b.val := by
  simp only [Dec.mul, Dec.val]
  push_cast
  rw [zpow_add₀ (by norm_num : (10 : ℚ) ≠ 0)]
  ring

lemma val_add (a b : Dec) : (a.add b).val = a.val + b.val := by
  simp only [Dec.add, Dec.val]
  have h10 : (10 : ℚ) ≠ 0 := by norm_num
  have ha : (10 : ℚ) ^ ((a.exp - min a.exp b.exp).toNat)
      = (10 : ℚ) ^ (a.exp - min a.exp b.exp) :=
    pow_toNat_eq _ (by omega)
  have hb : (10 : ℚ) ^ ((b.exp - min a.exp b.exp).toNat)
      = (10 : ℚ) ^ (b.exp - min a.exp b.exp) :=
    pow_toNat_eq _ (by omega)
  push_cast
  rw [ha, hb, zpow_sub₀ h10, zpow_sub₀ h10]
  have hm : (10 : ℚ) ^ (min a.exp b.exp) ≠ 0 := zpow_ne_zero _ h10
  field_simp

lemma quantize2_val_id (d : Dec) (h : -2 ≤ d.exp) : (d.quantize2).val = d.val := by
  simp only [Dec.quantize2, Dec.val]
  rw [if_pos h]
  show ((d.man * 10 ^ (d.exp + 2).toNat : ℤ) : ℚ) * (10 : ℚ) ^ (-2 : ℤ) = _
  push_cast
  rw [pow_toNat_eq _ (by omega), mul_assoc,
    ← zpow_add₀ (by norm_num : (10 : ℚ) ≠ 0),
    show d.exp + 2 + -2 = d.exp by omega]

example : parseDec ("254.00") = some ⟨25400, -2⟩ := by decide
example : parseDec ("254") = some ⟨254, 0⟩ := by decide
example : parseDec ("abc") = none := by decide
example : parseDec ("0.088") = some ⟨88, -3⟩ := by decide
example : parseEntry (.jobj []) = .ok ⟨"Item", ⟨0, 0⟩, 1⟩ := by rfl
example : taxLabel ⟨3, -1⟩ = "3E+1" := by decide
example : specStripLabel ⟨3, -1⟩ = "30" := by decide

/-! ### Structural lemmas about the builder loop -/

lemma val_int (q : Int) : Dec.val ⟨q, 0⟩ = (q : ℚ) := by
  simp [Dec.val]

lemma line_total_eq (it : LineItem) :
    it.line_total = ⟨ratHalfUp (100 * (it.price.val * (it.quantity : ℚ))), -2⟩ := by
  rw [LineItem.line_total, quantize2_eq, val_mul, val_int]

lemma line_total_val (it : LineItem) :
    (it.line_total).val = roundHalfUpRat2 (it.price.val * (it.quantity : ℚ)) := by
  rw [LineItem.line_total, quantize2_val, val_mul, val_int]

lemma line_total_exp (it : LineItem) : (it.line_total).exp = -2 :=
  quantize2_exp _

lemma receiptFold_general (sym : String) (items : List LineItem) :
    ∀ (ls : List String) (acc : Dec),
      items.foldl
        (fun a it => (a.1 ++ [renderItemLine sym it], a.2.add it.line_total))
        (ls, acc)
      = (ls ++ items.map (renderItemLine sym),
         items.foldl (fun s it => s.add it.line_total) acc) := by
  induction items with
  | nil => simp
  | cons head tail ih =>
    intro ls acc
    simp only [List.foldl_cons, List.map_cons]
    rw [ih]
    simp

lemma receiptFold_eq (sym : String) (items : List LineItem) :
    receiptFold sym items = ("Items:" :: items.map (renderItemLine sym), subtotalOf items) := by
  rw [receiptFold, subtotalOf, receiptFold_general]
  simp

lemma subtotal_foldl_val (items : List LineItem) :
    ∀ acc : Dec,
      (items.foldl (fun s it => s.add it.line_total) acc).val
        = acc.val + (items.map (fun it => (it.line_total).val)).sum := by
  induction items with
  | nil => simp
  | cons head tail ih =>
    intro acc
    simp only [List.foldl_cons, List.map_cons, List.sum_cons]
    rw [ih, val_add]
    ring

lemma subtotalOf_val (items : List LineItem) :
    (subtotalOf items).val = (items.map (fun it => (it.line_total).val)).sum := by
  rw [subtotalOf, subtotal_foldl_val]
  simp [Dec.val]

lemma subtotal_foldl_exp (items : List LineItem) :
    ∀ acc : Dec, -2 ≤ acc.exp →
      -2 ≤ (items.foldl (fun s it => s.add it.line_total) acc).exp := by
  induction items with
  | nil => exact fun acc h => h
  | cons head tail ih =>
    intro acc h
    simp only [List.foldl_cons]
    exact ih _ (by simp [Dec.add, line_total_exp]; omega)

lemma subtotalOf_exp (items : List LineItem) : -2 ≤ (subtotalOf items).exp :=
  subtotal_foldl_exp items ⟨0, 0⟩ (by norm_num)

/-! ### Claims -/

/-- C1: for the two-item Loveseat/Lamp order with `tax_rate = 0.088` and
currency `$`, parsing yields the two line items and `build_receipt` renders
subtotal `$306.15`, tax `$26.94` and total `$333.09`. -/
theorem c1_end_to_end :
    load_items_from_json (.jobj [("items", .jarr
      [.jobj [("description", .jstr ("Lovely Loveseat")),
              ("price", .jstr ("254.00")), ("quantity", .jint 1)],
       .jobj [("description", .jstr ("Luxurious Lamp")),
              ("price", .jstr ("52.15")), ("quantity", .jint 1)]])])
      = .ok [⟨"Lovely Loveseat", ⟨25400, -2⟩, 1⟩, ⟨"Luxurious Lamp", ⟨5215, -2⟩, 1⟩] ∧
    parseDec ("0.088") = some ⟨88, -3⟩ ∧
    build_receipt
      [⟨"Lovely Loveseat", ⟨25400, -2⟩, 1⟩, ⟨"Luxurious Lamp", ⟨5215, -2⟩, 1⟩]
      ⟨88, -3⟩ "$"
      = "Items:\n- Lovely Loveseat x 1 @ $254.00 = $254.00\n- Luxurious Lamp x 1 @ $52.15 = $52.15\n\nSubtotal: $306.15\nTax (8.8%): $26.94\nTotal: $333.09" := by
  exact ⟨rfl, by decide, by decide⟩

/-- C2: the subtotal accumulated by the `build_receipt` loop equals, as an
exact rational with no drift, the sum of the per-item already-rounded line
totals; checked in particular on the decimals 0.1 and 0.2 that binary
floating point cannot represent. -/
theorem c2_subtotal_exact_sum :
    (∀ (sym : String) (items : List LineItem),
      (receiptFold sym items).2 = subtotalOf items ∧
      ((receiptFold sym items).2).val
        = (items.map (fun it => (it.line_total).val)).sum) ∧
    (receiptFold ("$") [⟨"A", ⟨1, -1⟩, 1⟩, ⟨"B", ⟨2, -1⟩, 1⟩]).2 = ⟨30, -2⟩ ∧
    Dec.val ⟨30, -2⟩ = 3 / 10 := by
  refine ⟨fun sym items => ⟨?_, ?_⟩, by decide, by rw [val_mk_neg2]; norm_num⟩
  · rw [receiptFold_eq]
  · rw [receiptFold_eq]
    exact subtotalOf_val items

/-- C3: every line total is the half-up (away from zero at ties) rounding
of `price * quantity` to 2 decimal places; `2.005` at quantity 1 rounds to
`2.01`; and the line total depends only on the numeric value of the price,
so the differently formatted strings `"254.00"` and `"254"` give identical
line totals. -/
theorem c3_line_total_half_up :
    (∀ it : LineItem,
      (it.line_total).val = roundHalfUpRat2 (it.price.val * (it.quantity : ℚ))) ∧
    LineItem.line_total ⟨"Tie", ⟨2005, -3⟩, 1⟩ = ⟨201, -2⟩ ∧
    (∀ a b : LineItem, a.price.val = b.price.val → a.quantity = b.quantity →
      a.line_total = b.line_total) ∧
    parseDec ("254.00") = some ⟨25400, -2⟩ ∧ parseDec ("254") = some ⟨254, 0⟩ ∧
    LineItem.line_total ⟨"Sofa", ⟨25400, -2⟩, 1⟩
      = LineItem.line_total ⟨"Sofa", ⟨254, 0⟩, 1⟩ := by
  refine ⟨line_total_val, by decide, fun a b hp hq => ?_, by decide, by decide, by decide⟩
  rw [line_total_eq, line_total_eq, hp, hq]

/-- C3 witness: the formatting-independence part applied to the parses of
`"254.00"` and `"254"`. -/
theorem c3_line_total_half_up_witness :
    LineItem.line_total ⟨"Sofa", ⟨25400, -2⟩, 1⟩
      = LineItem.line_total ⟨"Sofa", ⟨254, 0⟩, 1⟩ :=
  c3_line_total_half_up.2.2.1 ⟨"Sofa", ⟨25400, -2⟩, 1⟩ ⟨"Sofa", ⟨254, 0⟩, 1⟩
    (by show Dec.val ⟨25400, -2⟩ = Dec.val ⟨254, 0⟩
        rw [val_mk_neg2, val_int]
        norm_num) rfl

/-- C4: `build_receipt` computes the tax as the half-up 2dp rounding of
`subtotal * tax_rate`, and the grand-total quantization is an identity:
the grand total equals `subtotal + tax` exactly. -/
theorem c4_tax_and_grand_total :
    ∀ (items : List LineItem) (tax_rate : Dec),
      (taxOf items tax_rate).val
        = roundHalfUpRat2 ((subtotalOf items).val * tax_rate.val) ∧
      (grandTotalOf items tax_rate).val
        = (subtotalOf items).val + (taxOf items tax_rate).val := by
  intro items tax_rate
  constructor
  · rw [taxOf, quantize2_val, val_mul]
  · rw [grandTotalOf, quantize2_val_id, val_add]
    have h1 := subtotalOf_exp items
    have h2 : (taxOf items tax_rate).exp = -2 := quantize2_exp _
    simp [Dec.add]
    omega

/-- C5 counterexample: the label is not always `tax_rate * 100` with
trailing zeros stripped. At `tax_rate = Decimal("0.3")`, `0.3 * 100 = 30.0`
normalizes to `3E+1`, so the code renders the scientific-notation string
`3E+1`, while the trailing-zeros-stripped numeral is `30`. -/
theorem c5_tax_label_counterexample :
    taxLabel ⟨3, -1⟩ = "3E+1" ∧ specStripLabel ⟨3, -1⟩ = "30" ∧
    taxLabel ⟨3, -1⟩ ≠ specStripLabel ⟨3, -1⟩ :=
  ⟨by decide, by decide, by decide⟩

/-- C5 (amended): the tax percentage label is `str((tax_rate*100).normalize())`,
which agrees with "trailing zeros stripped" exactly when the stripped value
still has exponent at most 0 and adjusted exponent at least -6 (otherwise
Python renders scientific notation); in particular 0.088 yields `8.8%`,
0.25 yields `25%`, and 0.05 yields `5%`. -/
theorem c5_tax_label_amended :
    (∀ tax_rate : Dec,
      ((tax_rate.mul ⟨100, 0⟩).normalize).exp ≤ 0 →
      -6 ≤ ((tax_rate.mul ⟨100, 0⟩).normalize).exp
          + ((toString ((tax_rate.mul ⟨100, 0⟩).normalize).man.natAbs).length : Int) - 1 →
      taxLabel tax_rate = specStripLabel tax_rate) ∧
    taxLabel ⟨88, -3⟩ = "8.8" ∧ taxLabel ⟨25, -2⟩ = "25" ∧ taxLabel ⟨5, -2⟩ = "5" := by
  refine ⟨fun tax_rate h1 h2 => ?_, by decide, by decide, by decide⟩
  have h3 : ¬ 0 < ((tax_rate.mul ⟨100, 0⟩).normalize).exp := by omega
  simp only [taxLabel, specStripLabel, Dec.sciString]
  rw [if_pos (And.intro h1 h2), if_neg h3]

/-- C5 witness: the amended equation applied at `tax_rate = 0.088`. -/
theorem c5_tax_label_amended_witness :
    taxLabel ⟨88, -3⟩ = specStripLabel ⟨88, -3⟩ :=
  c5_tax_label_amended.1 ⟨88, -3⟩ (by decide) (by decide)

lemma build_receipt_layout (items : List LineItem) (tax_rate : Dec) (sym : String) :
    build_receipt items tax_rate sym =
      String.intercalate ("\n")
        ("Items:" :: items.map (renderItemLine sym) ++
          ["",
           "Subtotal: " ++ format_money (subtotalOf items) sym,
           "Tax (" ++ taxLabel tax_rate ++ "%): "
             ++ format_money (taxOf items tax_rate) sym,
           "Total: " ++ format_money (grandTotalOf items tax_rate) sym]) := by
  simp only [build_receipt, receiptFold_eq, taxOf, grandTotalOf]

/-- C6: the receipt is the newline-join (hence no trailing newline) of the
`Items:` header, one rendered line per item in input order, a blank line,
and the Subtotal, Tax and Total lines; for the empty item list at tax rate
0 the output is exactly `Items:`, a blank line, `Subtotal: {symbol}0.00`,
`Tax (0%): {symbol}0.00`, `Total: {symbol}0.00`. -/
theorem c6_output_layout :
    (∀ (items : List LineItem) (tax_rate : Dec) (sym : String),
      build_receipt items tax_rate sym =
        String.intercalate ("\n")
          ("Items:" :: items.map (renderItemLine sym) ++
            ["",
             "Subtotal: " ++ format_money (subtotalOf items) sym,
             "Tax (" ++ taxLabel tax_rate ++ "%): "
               ++ format_money (taxOf items tax_rate) sym,
             "Total: " ++ format_money (grandTotalOf items tax_rate) sym])) ∧
    (∀ sym : String,
      build_receipt [] ⟨0, 0⟩ sym =
        String.intercalate ("\n")
          ["Items:", "",
           "Subtotal: " ++ (sym ++ "0.00"),
           "Tax (0%): " ++ (sym ++ "0.00"),
           "Total: " ++ (sym ++ "0.00")]) := by
  refine ⟨build_receipt_layout, fun sym => ?_⟩
  rw [build_receipt_layout]
  have e0 : Dec.sciString (Dec.quantize2 (subtotalOf [])) = "0.00" := by decide
  have et : taxLabel ⟨0, 0⟩ = "0" := by decide
  have e2 : Dec.sciString (Dec.quantize2 (taxOf [] ⟨0, 0⟩)) = "0.00" := by decide
  have e3 : Dec.sciString (Dec.quantize2 (grandTotalOf [] ⟨0, 0⟩)) = "0.00" := by decide
  have f1 : ("Tax (" ++ "0" : String) = "Tax (0" := by decide
  have f2 : ("Tax (0" ++ "%): " : String) = "Tax (0%): " := by decide
  simp only [List.map_nil, List.nil_append, format_money, e0, et, e2, e3, f1, f2]
  rfl

/-! ### Lemmas about `parseEntry` -/

/-- Whether one record parsed without an exception. -/
def exceptIsOk : Except String LineItem → Bool
  | .ok _ => true
  | .error _ => false

lemma parseEntry_ok_description (fields : List (String × JValue)) (it : LineItem)
    (h : parseEntry (.jobj fields) = .ok it) :
    it.description = pyStr (pyGetD fields ("description") (.jstr ("Item"))) := by
  simp only [parseEntry] at h
  cases hp : parseDec (pyStr (pyGetD fields ("price") (.jstr ("0")))) with
  | none => rw [hp] at h; exact Except.noConfusion h
  | some price =>
    rw [hp] at h
    cases hq : pyInt (pyGetD fields ("quantity") (.jint 1)) with
    | error msg => rw [hq] at h; exact Except.noConfusion h
    | ok q => rw [hq] at h; cases h; rfl

lemma parseEntry_ok_price (fields : List (String × JValue)) (it : LineItem)
    (h : parseEntry (.jobj fields) = .ok it) :
    parseDec (pyStr (pyGetD fields ("price") (.jstr ("0")))) = some it.price := by
  simp only [parseEntry] at h
  cases hp : parseDec (pyStr (pyGetD fields ("price") (.jstr ("0")))) with
  | none => rw [hp] at h; exact Except.noConfusion h
  | some price =>
    rw [hp] at h
    cases hq : pyInt (pyGetD fields ("quantity") (.jint 1)) with
    | error msg => rw [hq] at h; exact Except.noConfusion h
    | ok q => rw [hq] at h; cases h; rfl

lemma parseEntry_ok_quantity (fields : List (String × JValue)) (it : LineItem)
    (h : parseEntry (.jobj fields) = .ok it) :
    pyInt (pyGetD fields ("quantity") (.jint 1)) = .ok it.quantity := by
  simp only [parseEntry] at h
  cases hp : parseDec (pyStr (pyGetD fields ("price") (.jstr ("0")))) with
  | none => rw [hp] at h; exact Except.noConfusion h
  | some price =>
    rw [hp] at h
    cases hq : pyInt (pyGetD fields ("quantity") (.jint 1)) with
    | error msg => rw [hq] at h; exact Except.noConfusion h
    | ok q => rw [hq] at h; cases h; rfl

/-- C7 counterexample: a record whose `description` field is present but
empty keeps the empty string; it is not replaced by `"Item"`. -/
theorem c7_defaults_counterexample :
    parseEntry (.jobj [("description", .jstr (""))]) = .ok ⟨"", ⟨0, 0⟩, 1⟩ ∧
    ("" : String) ≠ "Item" :=
  ⟨rfl, by decide⟩

/-- C7 (amended): the parser substitutes defaults only for absent fields:
`description` becomes `"Item"` when the key is absent (a present empty
string is kept as `""`), `price` becomes 0 when absent, `quantity` becomes
1 when absent; the empty record parses to `LineItem("Item", 0, 1)`. -/
theorem c7_defaults_amended :
    (∀ (fields : List (String × JValue)) (it : LineItem),
      lookupLast fields ("description") = none →
      parseEntry (.jobj fields) = .ok it → it.description = "Item") ∧
    (∀ (fields : List (String × JValue)) (it : LineItem),
      lookupLast fields ("description") = some (.jstr ("")) →
      parseEntry (.jobj fields) = .ok it → it.description = "") ∧
    (∀ (fields : List (String × JValue)) (it : LineItem),
      lookupLast fields ("price") = none →
      parseEntry (.jobj fields) = .ok it → it.price = ⟨0, 0⟩) ∧
    (∀ (fields : List (String × JValue)) (it : LineItem),
      lookupLast fields ("quantity") = none →
      parseEntry (.jobj fields) = .ok it → it.quantity = 1) ∧
    parseEntry (.jobj []) = .ok ⟨"Item", ⟨0, 0⟩, 1⟩ := by
  refine ⟨?_, ?_, ?_, ?_, rfl⟩
  · intro fields it hl h
    rw [parseEntry_ok_description fields it h]
    simp [pyGetD, hl, pyStr]
  · intro fields it hl h
    rw [parseEntry_ok_description fields it h]
    simp [pyGetD, hl, pyStr]
  · intro fields it hl h
    have hp := parseEntry_ok_price fields it h
    rw [pyGetD, hl] at hp
    simp only [Option.getD_none] at hp
    have h0 : parseDec (pyStr (.jstr ("0"))) = some ⟨0, 0⟩ := by decide
    rw [h0] at hp
    exact (Option.some.inj hp).symm
  · intro fields it hl h
    have hq := parseEntry_ok_quantity fields it h
    rw [pyGetD, hl] at hq
    simp only [Option.getD_none, pyInt] at hq
    exact (Except.ok.inj hq).symm

/-- C7 witness: the absent-description default applied to a record that
only carries a price. -/
theorem c7_defaults_amended_witness :
    (⟨"Item", ⟨3, 0⟩, 1⟩ : LineItem).description = "Item" :=
  c7_defaults_amended.1 [("price", .jstr ("3"))] ⟨"Item", ⟨3, 0⟩, 1⟩ rfl rfl

/-- C8 counterexample: `{"items": ""}` is a mapping that does not hold a
list under `"items"`, yet parsing succeeds with the empty item list
(Python iterates the empty string), contradicting the claim that every
such structure fails. -/
theorem c8_structure_counterexample :
    load_items_from_json (.jobj [("items", .jstr (""))]) = .ok [] ∧
    JValue.isList (.jstr ("")) = false :=
  ⟨rfl, rfl⟩

/-- C8 (amended): parsing fails when the top level is not a mapping
(`AttributeError`), or when the `items` value is not iterable — null,
boolean or number (`TypeError`); an absent `items` key yields the empty
list; but a non-list iterable under `items` (a string or a mapping) is
iterated rather than rejected, so an empty string or empty mapping also
yields the empty item list. -/
theorem c8_structure_amended :
    (load_items_from_json .jnull = .error ("AttributeError")) ∧
    (∀ b, load_items_from_json (.jbool b) = .error ("AttributeError")) ∧
    (∀ n, load_items_from_json (.jint n) = .error ("AttributeError")) ∧
    (∀ s, load_items_from_json (.jstr s) = .error ("AttributeError")) ∧
    (∀ xs, load_items_from_json (.jarr xs) = .error ("AttributeError")) ∧
    (∀ fields, lookupLast fields ("items") = none →
      load_items_from_json (.jobj fields) = .ok []) ∧
    (∀ fields, lookupLast fields ("items") = some .jnull →
      load_items_from_json (.jobj fields) = .error ("TypeError")) ∧
    (∀ fields b, lookupLast fields ("items") = some (.jbool b) →
      load_items_from_json (.jobj fields) = .error ("TypeError")) ∧
    (∀ fields n, lookupLast fields ("items") = some (.jint n) →
      load_items_from_json (.jobj fields) = .error ("TypeError")) ∧
    load_items_from_json (.jobj [("items", .jobj [])]) = .ok [] := by
  refine ⟨rfl, fun b => rfl, fun n => rfl, fun s => rfl, fun xs => rfl,
    ?_, ?_, ?_, ?_, rfl⟩
  · intro fields hl
    simp [load_items_from_json, pyGetD, hl, pyIter, parseEntries]
  · intro fields hl
    simp [load_items_from_json, pyGetD, hl, pyIter]
  · intro fields b hl
    simp [load_items_from_json, pyGetD, hl, pyIter]
  · intro fields n hl
    simp [load_items_from_json, pyGetD, hl, pyIter]

/-- C8 witness: a mapping without an `items` key parses to the empty list. -/
theorem c8_structure_amended_witness :
    load_items_from_json (.jobj []) = .ok [] :=
  c8_structure_amended.2.2.2.2.2.1 [] rfl

/-- C9: an invalid price string raises at the first invalid record: after
any prefix of well-parsed records, a failing record makes the whole parse
return its error, with no partial item list; `"abc"` is such a price, and a
whole document containing it aborts with `InvalidOperation`. -/
theorem c9_invalid_price_aborts :
    (∀ (pre : List JValue) (e : JValue) (rest : List JValue) (msg : String),
      (∀ p ∈ pre, exceptIsOk (parseEntry p) = true) →
      parseEntry e = .error msg →
      parseEntries (pre ++ e :: rest) = .error msg) ∧
    (∀ (fields : List (String × JValue)) (s : String),
      lookupLast fields ("price") = some (.jstr s) → parseDec s = none →
      parseEntry (.jobj fields) = .error ("InvalidOperation")) ∧
    parseDec ("abc") = none ∧
    load_items_from_json (.jobj [("items", .jarr
      [.jobj [("price", .jstr ("1.00"))],
       .jobj [("price", .jstr ("abc"))],
       .jobj [("price", .jstr ("2.00"))]])]) = .error ("InvalidOperation") := by
  refine ⟨?_, ?_, by decide, rfl⟩
  · intro pre
    induction pre with
    | nil =>
      intro e rest msg hpre he
      simp only [List.nil_append, parseEntries, he]
    | cons p ps ih =>
      intro e rest msg hpre he
      have hp := hpre p (List.mem_cons_self p ps)
      cases hP : parseEntry p with
      | error m => rw [hP] at hp; exact Bool.noConfusion hp
      | ok it =>
        simp only [List.cons_append, parseEntries, hP, List.append_eq]
        rw [ih e rest msg (fun q hq => hpre q (List.mem_cons_of_mem p hq)) he]
  · intro fields s hl hs
    simp only [parseEntry, pyGetD, hl, Option.getD_some, pyStr, hs]

/-- C9 witness: the first-invalid-record law applied to a two-record
document whose second price is `"abc"`. -/
theorem c9_invalid_price_aborts_witness :
    parseEntries
      [.jobj [("price", .jstr ("1.00"))], .jobj [("price", .jstr ("abc"))]]
      = .error ("InvalidOperation") :=
  c9_invalid_price_aborts.1 [.jobj [("price", .jstr ("1.00"))]]
    (.jobj [("price", .jstr ("abc"))]) [] ("InvalidOperation")
    (by intro p hp
        rw [List.mem_singleton.mp hp]
        rfl)
    rfl

/-- C10: the unit price after `@` is rendered through the money formatter,
i.e. quantized half-up to 2dp, not the stored price (2.005 displays as
2.01, a different value); and since the line total is computed from the
exact stored price, the displayed unit price times the quantity can differ
from the displayed line total, as at price 2.005 with quantity 2 where the
line shows `@ $2.01 = $4.01` although 2.01 × 2 = 4.02. -/
theorem c10_displayed_unit_price :
    (∀ (sym : String) (it : LineItem),
      renderItemLine sym it
        = "- " ++ it.description ++ " x " ++ toString it.quantity ++ " @ "
            ++ (sym ++ (it.price.quantize2).sciString) ++ " = "
            ++ (sym ++ ((it.line_total).quantize2).sciString)) ∧
    Dec.quantize2 ⟨2005, -3⟩ = ⟨201, -2⟩ ∧
    Dec.val ⟨201, -2⟩ ≠ Dec.val ⟨2005, -3⟩ ∧
    renderItemLine ("$") ⟨"Widget", ⟨2005, -3⟩, 2⟩ = "- Widget x 2 @ $2.01 = $4.01" ∧
    LineItem.line_total ⟨"Widget", ⟨2005, -3⟩, 2⟩ = ⟨401, -2⟩ ∧
    Dec.val ⟨201, -2⟩ * 2 ≠ Dec.val ⟨401, -2⟩ := by
  refine ⟨fun sym it => rfl, by decide, ?_, by decide, by decide, ?_⟩
  · have hv : Dec.val ⟨2005, -3⟩ = (2005 : ℚ) / 1000 := by
      have h3 : ((-3 : ℤ)) = -(((3 : ℕ)) : ℤ) := by norm_num
      simp only [Dec.val, h3, zpow_neg, zpow_natCast]
      norm_num
    rw [val_mk_neg2, hv]
    norm_num
  · rw [val_mk_neg2, val_mk_neg2]
    norm_num

end ReceiptGen
